import Mathlib

/-!
Shallow embedding of the dra-example driver (pkg/driver/driver.go,
pkg/driver/publisher.go) and proofs about its prepare/unprepare lifecycle,
its CDI descriptor handling and its ResourceSlice publisher.

Go strings are modeled as Lean `String` values viewed through their
character list (`String.data`); the byte-level operations the driver uses
(`strings.Split` on a newline, `strings.Join`, `strings.HasSuffix` of a
newline, `strings.ReplaceAll` of a single character, `claim.Uid[:8]`) are
modeled as the corresponding character-list operations.  File-system and
broker I/O failures are injected explicitly as boolean/err parameters; a
failed write leaves the file unchanged (writes are treated as atomic, which
is the abstraction the code itself relies on).  A Go panic is modeled as
`Option.none` bubbling up to the whole handler call.
-/

set_option linter.unusedVariables false

namespace DraExample

/-! ## Constants from pkg/driver/driver.go lines 18-22 -/

def resourceFileName : String := "file1"

def cdiDir : String := "/var/run/cdi"

def cdiVersion : String := "0.5.0"

/-- A DRA claim as the gRPC handlers see it; the driver reads only
`claim.Uid` and `claim.Name`. -/
structure Claim where
  uid : String
  name : String
deriving DecidableEq, Repr

/-! ## Go maps with string keys, modeled as association lists -/

/-- Lookup `m[k]` in a Go map. -/
def mapLookup {α : Type} (m : List (String × α)) (k : String) : Option α :=
  match m with
  | [] => none
  | (k2, v) :: rest => if k2 = k then some v else mapLookup rest k

/-- Assignment `m[k] = v` in a Go map: overwrite the binding if present,
otherwise add it. -/
def mapInsert {α : Type} (m : List (String × α)) (k : String) (v : α) :
    List (String × α) :=
  match m with
  | [] => [(k, v)]
  | (k2, v2) :: rest =>
    if k2 = k then (k, v) :: rest else (k2, v2) :: mapInsert rest k v

/-- Go `delete(m, k)`. -/
def mapErase {α : Type} (m : List (String × α)) (k : String) :
    List (String × α) :=
  match m with
  | [] => []
  | (k2, v2) :: rest =>
    if k2 = k then mapErase rest k else (k2, v2) :: mapErase rest k

/-! ## The Go string operations used by unprepareResource and createCDISpec -/

/-- Model of Go `strings.Split(s, "\n")`: split the character sequence at
every newline character. -/
def goSplitNL (s : String) : List String :=
  (s.data.splitOn '\n').map (fun cs => String.mk cs)

/-- Model of Go `strings.Join(lines, "\n")`. -/
def goJoinNL (ls : List String) : String :=
  String.mk (List.intercalate ['\n'] (ls.map String.data))

/-- Model of Go `strings.HasSuffix(s, "\n")`. -/
def goEndsWithNL (s : String) : Bool :=
  s.data.getLast? == some '\n'

/-- Model of Go `strings.ReplaceAll(s, "/", "-")` (single-character pattern
and replacement, hence a character map). -/
def goReplaceSlashDash (s : String) : String :=
  String.mk (s.data.map (fun c => if c = '/' then '-' else c))

/-! ## CDI spec structures (driver.go lines 256-275) -/

structure cdiMount where
  hostPath : String
  containerPath : String
  options : List String
deriving DecidableEq, Repr

structure cdiContainerEdits where
  mounts : List cdiMount
deriving DecidableEq, Repr

structure cdiDevice where
  name : String
  containerEdits : cdiContainerEdits
deriving DecidableEq, Repr

structure cdiSpec where
  cdiVersion : String
  kind : String
  devices : List cdiDevice
deriving DecidableEq, Repr

/-! ## Driver configuration and state -/

/-- The static fields of the `Driver` struct (driver.go lines 25-38). -/
structure DriverCfg where
  driverName : String
  nodeName : String
  resourceDir : String
deriving DecidableEq, Repr

/-- The mutable state the driver owns: the `podResources` map
(claim uid -> pod name), the contents of the resource file
(`none` = the file does not exist), and the contents of the CDI
directory as a map from file name to parsed spec. -/
structure DriverState where
  podResources : List (String × String)
  resourceFile : Option String
  cdiFiles : List (String × cdiSpec)
deriving DecidableEq, Repr

/-- A freshly constructed driver (`New`, driver.go lines 41-49) on a node
where neither the resource file nor any CDI spec exists yet. -/
def initState : DriverState :=
  { podResources := [], resourceFile := none, cdiFiles := [] }

/-- `filepath.Join(d.resourceDir, resourceFileName)`. -/
def resourceFilePath (cfg : DriverCfg) : String :=
  cfg.resourceDir ++ "/" ++ resourceFileName

/-- The record written for one claim:
`fmt.Sprintf("%s (claim: %s)", podName, claimUID)`. -/
def recordLine (podName claimUID : String) : String :=
  podName ++ " (claim: " ++ claimUID ++ ")"

/-! ## prepareResource and unprepareResource (driver.go lines 184-253) -/

/-- `prepareResource` (driver.go lines 184-203).  `writeErr` injects a
failure of `os.WriteFile`.  Note that the file is overwritten with the
single new record; the previous contents are never read. -/
def prepareResource (s : DriverState) (claimUID podName : String)
    (writeErr : Bool) : DriverState × Option String :=
  let content := recordLine podName claimUID ++ "\n"
  if writeErr then (s, some "failed to write resource file")
  else
    ({ s with
        resourceFile := some content
        podResources := mapInsert s.podResources claimUID podName }, none)

/-- The new file contents computed by `unprepareResource` (driver.go lines
227-242): split into lines, keep every line that is non-empty and different
from this claim's record, join with newlines, and restore a trailing
newline when the result is non-empty. -/
def newResourceContent (podName claimUID data : String) : String :=
  let lines := goSplitNL data
  let searchPattern := recordLine podName claimUID
  let newLines := lines.filter (fun l => l != "" && l != searchPattern)
  let joined := goJoinNL newLines
  if joined != "" && !(goEndsWithNL joined) then joined ++ "\n" else joined

/-- `unprepareResource` (driver.go lines 206-253).  `readErr` injects a
non-"not exist" failure of `os.ReadFile` (a missing file takes the
`os.IsNotExist` early-return path instead); `writeErr` injects a failure
of `os.WriteFile`, which returns before `delete(d.podResources, claimUID)`
runs. -/
def unprepareResource (s : DriverState) (claimUID : String)
    (readErr writeErr : Bool) : DriverState × Option String :=
  match mapLookup s.podResources claimUID with
  | none => (s, none)
  | some podName =>
    match s.resourceFile with
    | none => (s, none)
    | some data =>
      if readErr then (s, some "failed to read resource file")
      else if writeErr then (s, some "failed to write resource file")
      else
        ({ s with
            resourceFile :=
              some (newResourceContent podName claimUID data)
            podResources := mapErase s.podResources claimUID }, none)

/-! ## CDI spec creation and deletion (driver.go lines 278-333) -/

/-- The CDI spec file name computed in `createCDISpec` and `deleteCDISpec`:
`fmt.Sprintf("%s-file-%s.json", strings.ReplaceAll(d.driverName, "/", "-"),
resourceFileName)`.  The `claimUID` parameter mirrors the Go functions'
parameter, which their file-name computation never uses. -/
def cdiFileName (cfg : DriverCfg) (claimUID : String) : String :=
  goReplaceSlashDash cfg.driverName ++ "-file-" ++ resourceFileName ++ ".json"

/-- The spec value marshalled by `createCDISpec` (driver.go lines 286-303). -/
def mkCdiSpec (cfg : DriverCfg) : cdiSpec :=
  { cdiVersion := cdiVersion
    kind := cfg.driverName ++ "/file"
    devices := [{ name := resourceFileName
                  containerEdits :=
                    { mounts := [{ hostPath := resourceFilePath cfg
                                   containerPath := resourceFilePath cfg
                                   options := ["ro", "bind"] }] } }] }

/-- `createCDISpec` (driver.go lines 278-320).  The `MkdirAll`, marshal and
`WriteFile` failure cases are collapsed into the injected `writeErr`. -/
def createCDISpec (cfg : DriverCfg) (s : DriverState) (claimUID : String)
    (writeErr : Bool) : DriverState × Option String :=
  if writeErr then (s, some "failed to write CDI spec")
  else
    ({ s with
        cdiFiles :=
          mapInsert s.cdiFiles (cdiFileName cfg claimUID) (mkCdiSpec cfg) },
      none)

/-- `deleteCDISpec` (driver.go lines 323-333).  `removeErr` injects a
non-"not exist" failure of `os.Remove`; removing an absent file succeeds. -/
def deleteCDISpec (cfg : DriverCfg) (s : DriverState) (claimUID : String)
    (removeErr : Bool) : DriverState × Option String :=
  if removeErr then (s, some "failed to delete CDI spec")
  else ({ s with cdiFiles := mapErase s.cdiFiles (cdiFileName cfg claimUID) },
        none)

/-! ## extractPodName (driver.go lines 174-181) -/

/-- `extractPodName`.  `claim.Uid[:8]` panics in Go when the uid has fewer
than 8 bytes; the panic is modeled as `none`. -/
def extractPodName (c : Claim) : Option String :=
  if c.name ≠ "" then some ("pod-using-" ++ c.name)
  else if 8 ≤ c.uid.length then some ("pod-" ++ String.mk (c.uid.data.take 8))
  else none

/-! ## The gRPC handlers (driver.go lines 92-171) -/

structure Device where
  poolName : String
  deviceName : String
  cdiDeviceIds : List String
deriving DecidableEq, Repr

/-- One entry of `NodePrepareResourcesResponse.Claims`: the error path sets
only `Error`, the success path sets only `Devices`. -/
structure NodePrepareResourceResponse where
  devices : List Device := []
  error : String := ""
deriving DecidableEq, Repr

structure NodeUnprepareResourceResponse where
  error : String := ""
deriving DecidableEq, Repr

/-- Injected I/O outcomes for one `NodePrepareResources` batch, keyed by the
claim uid whose preparation performs the write. -/
structure PrepEnv where
  resourceWriteErr : String → Bool
  cdiWriteErr : String → Bool

/-- Injected I/O outcomes for one `NodeUnprepareResources` batch. -/
structure UnprepEnv where
  readErr : String → Bool
  writeErr : String → Bool
  cdiRemoveErr : String → Bool

/-- The body of the claim loop of `NodePrepareResources`
(driver.go lines 99-137) for a single claim; `none` models a panic in
`extractPodName`. -/
def prepareClaimStep (cfg : DriverCfg) (env : PrepEnv) (s : DriverState)
    (c : Claim) : Option (DriverState × NodePrepareResourceResponse) :=
  match extractPodName c with
  | none => none
  | some podName =>
    match prepareResource s c.uid podName (env.resourceWriteErr c.uid) with
    | (s1, some msg) => some (s1, { error := msg })
    | (s1, none) =>
      let cdiDeviceID := cfg.driverName ++ "/file=" ++ resourceFileName
      match createCDISpec cfg s1 c.uid (env.cdiWriteErr c.uid) with
      | (s2, some msg) => some (s2, { error := msg })
      | (s2, none) =>
        some (s2, { devices := [{ poolName := "default"
                                  deviceName := resourceFileName
                                  cdiDeviceIds := [cdiDeviceID] }] })

/-- `NodePrepareResources` (driver.go lines 92-140), threading the driver
state through the claim loop and building `resp.Claims`. -/
def nodePrepareResourcesAux (cfg : DriverCfg) (env : PrepEnv) :
    DriverState → List Claim → List (String × NodePrepareResourceResponse) →
    Option (DriverState × List (String × NodePrepareResourceResponse))
  | s, [], acc => some (s, acc)
  | s, c :: rest, acc =>
    match prepareClaimStep cfg env s c with
    | none => none
    | some (s1, r) =>
      nodePrepareResourcesAux cfg env s1 rest (mapInsert acc c.uid r)

def nodePrepareResources (cfg : DriverCfg) (env : PrepEnv) (s : DriverState)
    (claims : List Claim) :
    Option (DriverState × List (String × NodePrepareResourceResponse)) :=
  nodePrepareResourcesAux cfg env s claims []

/-- The body of the claim loop of `NodeUnprepareResources`
(driver.go lines 150-168) for a single claim: a `deleteCDISpec` failure is
only logged, never surfaced. -/
def unprepareClaimStep (cfg : DriverCfg) (env : UnprepEnv) (s : DriverState)
    (claimUID : String) : DriverState × NodeUnprepareResourceResponse :=
  match unprepareResource s claimUID (env.readErr claimUID)
      (env.writeErr claimUID) with
  | (s1, some msg) => (s1, { error := msg })
  | (s1, none) =>
    ((deleteCDISpec cfg s1 claimUID (env.cdiRemoveErr claimUID)).1, {})

def nodeUnprepareResourcesAux (cfg : DriverCfg) (env : UnprepEnv) :
    DriverState → List Claim → List (String × NodeUnprepareResourceResponse) →
    DriverState × List (String × NodeUnprepareResourceResponse)
  | s, [], acc => (s, acc)
  | s, c :: rest, acc =>
    let step := unprepareClaimStep cfg env s c.uid
    nodeUnprepareResourcesAux cfg env step.1 rest (mapInsert acc c.uid step.2)

def nodeUnprepareResources (cfg : DriverCfg) (env : UnprepEnv)
    (s : DriverState) (claims : List Claim) :
    DriverState × List (String × NodeUnprepareResourceResponse) :=
  nodeUnprepareResourcesAux cfg env s claims []

/-! ## Traces of resource-level operations -/

/-- One serialized call of `prepareResource` or `unprepareResource`, with
its injected I/O outcomes.  The driver's mutex makes every interleaving of
handler calls equivalent to such a serial trace. -/
inductive ResOp where
  | prep (claimUID podName : String) (writeErr : Bool)
  | unprep (claimUID : String) (readErr writeErr : Bool)
deriving DecidableEq, Repr

def resStep (s : DriverState) : ResOp → DriverState × Option String
  | .prep u p we => prepareResource s u p we
  | .unprep u re we => unprepareResource s u re we

def runOps (s : DriverState) : List ResOp → DriverState
  | [] => s
  | op :: rest => runOps (resStep s op).1 rest

def opSucceeds (s : DriverState) (op : ResOp) : Bool :=
  (resStep s op).2.isNone

/-- The sequence of operations of a trace paired with whether each one
completed successfully (returned a nil error) when executed from `s`. -/
def runEvents (s : DriverState) : List ResOp → List (ResOp × Bool)
  | [] => []
  | op :: rest => (op, opSucceeds s op) :: runEvents (resStep s op).1 rest

/-- The non-empty lines of the resource file, the view both the spec's
invariants and `unprepareResource`'s filtering are about. -/
def fileLines (s : DriverState) : List String :=
  match s.resourceFile with
  | none => []
  | some data => (goSplitNL data).filter (fun l => l != "")

/-! ## Helper lemmas about the Go-map model -/

theorem mapLookup_insert {α : Type} (m : List (String × α)) (k k' : String)
    (v : α) :
    mapLookup (mapInsert m k v) k' =
      if k = k' then some v else mapLookup m k' := by
  induction m with
  | nil => simp [mapInsert, mapLookup]
  | cons hd tl ih =>
    obtain ⟨k2, v2⟩ := hd
    by_cases h1 : k2 = k
    · subst h1
      simp only [mapInsert, if_pos rfl, mapLookup]
      by_cases h2 : k2 = k' <;> simp [h2]
    · simp only [mapInsert, if_neg h1, mapLookup]
      by_cases h2 : k2 = k'
      · subst h2
        have hne : k ≠ k2 := fun h => h1 h.symm
        simp [if_neg hne]
      · simp [h2, ih]

theorem mapLookup_erase {α : Type} (m : List (String × α)) (k k' : String) :
    mapLookup (mapErase m k) k' =
      if k = k' then none else mapLookup m k' := by
  induction m with
  | nil => simp [mapErase, mapLookup]
  | cons hd tl ih =>
    obtain ⟨k2, v2⟩ := hd
    by_cases h1 : k2 = k
    · subst h1
      by_cases h2 : k2 = k'
      · subst h2
        simp [mapErase, ih]
      · simp [mapErase, mapLookup, h2, ih]
    · by_cases h2 : k2 = k'
      · subst h2
        have hne : k ≠ k2 := fun h => h1 h.symm
        simp [mapErase, mapLookup, h1, if_neg hne]
      · simp [mapErase, mapLookup, h1, h2, ih]

/-! ## Helper lemmas about the string-level file operations -/

theorem string_mk_data (s : String) : String.mk s.data = s := rfl

theorem recordLine_data (podName claimUID : String) :
    (recordLine podName claimUID).data =
      podName.data ++ (" (claim: ").data ++ claimUID.data ++ (")").data := by
  simp [recordLine, String.data_append]

theorem recordLine_ne_empty (podName claimUID : String) :
    recordLine podName claimUID ≠ "" := by
  intro h
  have hd := congrArg String.data h
  rw [recordLine_data] at hd
  simp at hd

theorem recordLine_clean (podName claimUID : String)
    (hp : '\n' ∉ podName.data) (hu : '\n' ∉ claimUID.data) :
    '\n' ∉ (recordLine podName claimUID).data := by
  rw [recordLine_data]
  intro hmem
  simp only [List.mem_append] at hmem
  rcases hmem with ((h | h) | h) | h
  · exact hp h
  · revert h
    decide
  · exact hu h
  · revert h
    decide

theorem recordLine_getLast (podName claimUID : String) :
    (recordLine podName claimUID).data.getLast? = some ')' := by
  rw [recordLine_data]
  have : podName.data ++ (" (claim: ").data ++ claimUID.data ++ (")").data =
      (podName.data ++ (" (claim: ").data ++ claimUID.data) ++ [')'] := by
    simp
  rw [this, List.getLast?_concat]

theorem goEndsWithNL_recordLine (podName claimUID : String) :
    goEndsWithNL (recordLine podName claimUID) = false := by
  simp [goEndsWithNL, recordLine_getLast]

theorem goSplitNL_empty : goSplitNL "" = [""] := rfl

theorem goJoinNL_nil : goJoinNL [] = "" := rfl

theorem goJoinNL_singleton (l : String) : goJoinNL [l] = l := by
  simp [goJoinNL, List.intercalate]

/-- Splitting a newline-free chunk followed by one newline yields the chunk
and an empty trailing piece, exactly as Go's strings.Split does. -/
theorem goSplitNL_record (l : String) (hl : '\n' ∉ l.data) :
    goSplitNL (l ++ "\n") = [l, ""] := by
  have hdata : (l ++ "\n").data = l.data ++ '\n' :: [] := by
    simp [String.data_append]
  have hsplit : (l.data ++ '\n' :: []).splitOn '\n' = l.data :: [].splitOn '\n' := by
    apply List.splitOnP_first
    · intro x hx
      simp only [beq_iff_eq]
      intro hEq
      exact hl (hEq ▸ hx)
    · simp
  simp only [goSplitNL, hdata, hsplit]
  rfl

theorem fileLines_of_none (s : DriverState) (h : s.resourceFile = none) :
    fileLines s = [] := by
  simp [fileLines, h]

theorem fileLines_of_empty (s : DriverState) (h : s.resourceFile = some "") :
    fileLines s = [] := by
  simp [fileLines, h, goSplitNL_empty]

theorem fileLines_of_record (s : DriverState) (l : String)
    (h : s.resourceFile = some (l ++ "\n")) (hl : '\n' ∉ l.data)
    (hne : l ≠ "") : fileLines s = [l] := by
  simp only [fileLines, h, goSplitNL_record l hl]
  have hb : (l != "") = true := by simp [bne_iff_ne, hne]
  simp [List.filter, hb]

/-! ## Computing newResourceContent on the reachable file shapes -/

theorem newResourceContent_of_empty (podName claimUID : String) :
    newResourceContent podName claimUID "" = "" := by
  simp [newResourceContent, goSplitNL_empty, goJoinNL_nil]

theorem newResourceContent_self (pod uid : String)
    (hclean : '\n' ∉ (recordLine pod uid).data) :
    newResourceContent pod uid (recordLine pod uid ++ "\n") = "" := by
  simp [newResourceContent, goSplitNL_record _ hclean, goJoinNL_nil]

theorem newResourceContent_of_record_ne (pod uid pod' uid' : String)
    (hclean : '\n' ∉ (recordLine pod' uid').data)
    (hne : recordLine pod' uid' ≠ recordLine pod uid) :
    newResourceContent pod uid (recordLine pod' uid' ++ "\n") =
      recordLine pod' uid' ++ "\n" := by
  have h1 : (recordLine pod' uid' != "") = true := by
    simp [bne_iff_ne, recordLine_ne_empty]
  have h2 : (recordLine pod' uid' != recordLine pod uid) = true := by
    simp [bne_iff_ne, hne]
  simp [newResourceContent, goSplitNL_record _ hclean, h1, h2,
    goJoinNL_singleton, goEndsWithNL_recordLine]

/-! ## The file-shape invariant preserved by every prepare/unprepare call -/

/-- The strings a prepare call writes into the file contain no newline.
Unprepare calls never add file content, so they need no side condition. -/
def opClean : ResOp → Prop
  | .prep claimUID podName _ => '\n' ∉ claimUID.data ∧ '\n' ∉ podName.data
  | .unprep _ _ _ => True

/-- Shape of the resource file in every reachable state: absent, empty, or
exactly one newline-terminated record belonging to a tracked claim. -/
def FileOk (s : DriverState) : Prop :=
  s.resourceFile = none ∨ s.resourceFile = some "" ∨
    ∃ uid pod, mapLookup s.podResources uid = some pod ∧
      '\n' ∉ (recordLine pod uid).data ∧
      s.resourceFile = some (recordLine pod uid ++ "\n")

theorem fileOk_init : FileOk initState := Or.inl rfl

theorem fileOk_step (s : DriverState) (op : ResOp) (hc : opClean op)
    (h : FileOk s) : FileOk (resStep s op).1 := by
  cases op with
  | prep uid pod we =>
    obtain ⟨hu, hp⟩ := hc
    cases we with
    | true => simpa [resStep, prepareResource] using h
    | false =>
      refine Or.inr (Or.inr ⟨uid, pod, ?_, ?_, ?_⟩)
      · simp [resStep, prepareResource, mapLookup_insert]
      · exact recordLine_clean pod uid hp hu
      · simp [resStep, prepareResource]
  | unprep uid re we =>
    cases hLook : mapLookup s.podResources uid with
    | none => simpa [resStep, unprepareResource, hLook] using h
    | some pod =>
      cases hFile : s.resourceFile with
      | none => simpa [resStep, unprepareResource, hLook, hFile] using h
      | some data =>
        cases re with
        | true => simpa [resStep, unprepareResource, hLook, hFile] using h
        | false =>
          cases we with
          | true => simpa [resStep, unprepareResource, hLook, hFile] using h
          | false =>
            simp only [resStep, unprepareResource, hLook, hFile]
            rcases h with h | h | h
            · rw [hFile] at h
              exact absurd h (by simp)
            · rw [hFile] at h
              obtain rfl : data = "" := by simpa using h
              exact Or.inr (Or.inl (by simp [newResourceContent_of_empty]))
            · obtain ⟨uid', pod', hLook', hclean', hFile'⟩ := h
              rw [hFile] at hFile'
              obtain rfl : data = recordLine pod' uid' ++ "\n" := by
                simpa using hFile'
              by_cases heq : recordLine pod' uid' = recordLine pod uid
              · rw [heq] at hclean' ⊢
                exact Or.inr (Or.inl (by
                  simp [newResourceContent_self pod uid hclean']))
              · have huid : ¬ uid = uid' := by
                  intro hEq
                  subst hEq
                  rw [hLook'] at hLook
                  obtain rfl : pod' = pod := by simpa using hLook
                  exact heq rfl
                refine Or.inr (Or.inr ⟨uid', pod', ?_, hclean', ?_⟩)
                · simp [mapLookup_erase, huid, hLook']
                · simp [newResourceContent_of_record_ne pod uid pod' uid'
                    hclean' heq]

/-- FileOk holds after any trace of prepare/unprepare calls whose prepare
arguments are newline-free. -/
theorem fileOk_runOps (s : DriverState) (ops : List ResOp)
    (hc : ∀ op ∈ ops, opClean op) (h : FileOk s) : FileOk (runOps s ops) := by
  induction ops generalizing s with
  | nil => exact h
  | cons op rest ih =>
    exact ih (resStep s op).1 (fun o ho => hc o (List.mem_cons_of_mem _ ho))
      (fileOk_step s op (hc op (List.mem_cons_self _ _)) h)

/-! ## Tracking of claim ids across a trace (for the DeviceRecord invariant) -/

/-- In every reachable state, a tracked claim implies the resource file
exists, because only a successful prepare can populate `podResources` and
it also writes the file, which no later operation deletes.  This rules out
the `os.IsNotExist` early return of `unprepareResource` while the claim is
still tracked. -/
def TrackedFile (s : DriverState) : Prop :=
  ∀ u, (mapLookup s.podResources u).isSome = true → s.resourceFile.isSome = true

theorem trackedFile_init : TrackedFile initState := by
  intro u h
  simp [initState, mapLookup] at h

theorem trackedFile_step (s : DriverState) (op : ResOp) (h : TrackedFile s) :
    TrackedFile (resStep s op).1 := by
  cases op with
  | prep uid pod we =>
    cases we with
    | true => simpa [resStep, prepareResource] using h
    | false =>
      intro u hu
      simp [resStep, prepareResource]
  | unprep uid re we =>
    cases hLook : mapLookup s.podResources uid with
    | none => simpa [resStep, unprepareResource, hLook] using h
    | some pod =>
      cases hFile : s.resourceFile with
      | none => simpa [resStep, unprepareResource, hLook, hFile] using h
      | some data =>
        cases re with
        | true => simpa [resStep, unprepareResource, hLook, hFile] using h
        | false =>
          cases we with
          | true => simpa [resStep, unprepareResource, hLook, hFile] using h
          | false =>
            intro u hu
            simp [resStep, unprepareResource, hLook, hFile]

/-- How one event of the log updates whether a given claim uid is tracked:
a successful prepare of that uid tracks it, a successful unprepare of that
uid untracks it, everything else leaves it alone. -/
def activeUpd (uid : String) (b : Bool) : ResOp × Bool → Bool
  | (ResOp.prep u _ _, ok) => if ok && u == uid then true else b
  | (ResOp.unprep u _ _, ok) => if ok && u == uid then false else b

def activeFold (uid : String) (b : Bool) (evs : List (ResOp × Bool)) : Bool :=
  evs.foldl (activeUpd uid) b

/-- One step of the driver changes the tracked-set exactly as `activeUpd`
predicts from the operation and its success. -/
theorem tracked_step (s : DriverState) (op : ResOp) (uid : String)
    (hInv : TrackedFile s) :
    (mapLookup ((resStep s op).1).podResources uid).isSome =
      activeUpd uid ((mapLookup s.podResources uid).isSome)
        (op, opSucceeds s op) := by
  cases op with
  | prep u pod we =>
    cases we with
    | true => simp [resStep, prepareResource, activeUpd, opSucceeds]
    | false =>
      by_cases hu : u = uid
      · subst hu
        simp [resStep, prepareResource, activeUpd, opSucceeds,
          mapLookup_insert]
      · simp [resStep, prepareResource, activeUpd, opSucceeds,
          mapLookup_insert, hu]
  | unprep u re we =>
    cases hLook : mapLookup s.podResources u with
    | none =>
      by_cases hu : u = uid
      · subst hu
        simp [resStep, unprepareResource, hLook, activeUpd, opSucceeds]
      · simp [resStep, unprepareResource, hLook, activeUpd, opSucceeds, hu]
    | some pod =>
      have hFileSome : s.resourceFile.isSome = true :=
        hInv u (by simp [hLook])
      obtain ⟨data, hFile⟩ := Option.isSome_iff_exists.mp hFileSome
      cases re with
      | true =>
        simp [resStep, unprepareResource, hLook, hFile, activeUpd, opSucceeds]
      | false =>
        cases we with
        | true =>
          simp [resStep, unprepareResource, hLook, hFile, activeUpd,
            opSucceeds]
        | false =>
          by_cases hu : u = uid
          · subst hu
            simp [resStep, unprepareResource, hLook, hFile, activeUpd,
              opSucceeds, mapLookup_erase]
          · simp [resStep, unprepareResource, hLook, hFile, activeUpd,
              opSucceeds, mapLookup_erase, hu]

/-- Across a whole trace, whether a claim uid ends up tracked is the fold
of `activeUpd` over the event log. -/
theorem tracked_runOps (ops : List ResOp) (s : DriverState) (uid : String)
    (hInv : TrackedFile s) :
    (mapLookup (runOps s ops).podResources uid).isSome =
      activeFold uid ((mapLookup s.podResources uid).isSome)
        (runEvents s ops) := by
  induction ops generalizing s with
  | nil => rfl
  | cons op rest ih =>
    have hstep := tracked_step s op uid hInv
    calc (mapLookup (runOps s (op :: rest)).podResources uid).isSome
        = (mapLookup (runOps (resStep s op).1 rest).podResources uid).isSome := rfl
      _ = activeFold uid
            ((mapLookup ((resStep s op).1).podResources uid).isSome)
            (runEvents (resStep s op).1 rest) :=
          ih (resStep s op).1 (trackedFile_step s op hInv)
      _ = activeFold uid
            ((mapLookup s.podResources uid).isSome)
            (runEvents s (op :: rest)) := by
          rw [hstep]
          rfl

/-! ## The spec-side notion: prepared and not since unprepared -/

def isPrepSuccessFor (uid : String) : ResOp × Bool → Prop
  | (ResOp.prep u _ _, ok) => u = uid ∧ ok = true
  | (ResOp.unprep _ _ _, _) => False

def isUnprepSuccessFor (uid : String) : ResOp × Bool → Prop
  | (ResOp.unprep u _ _, ok) => u = uid ∧ ok = true
  | (ResOp.prep _ _ _, _) => False

/-- The event log contains a successful prepare of this uid with no later
successful unprepare of it. -/
def SpecActive (uid : String) (evs : List (ResOp × Bool)) : Prop :=
  ∃ pre ev post, evs = pre ++ ev :: post ∧ isPrepSuccessFor uid ev ∧
    ∀ ev2 ∈ post, ¬ isUnprepSuccessFor uid ev2

theorem specActive_nil (uid : String) : ¬ SpecActive uid [] := by
  rintro ⟨pre, ev, post, habs, -, -⟩
  exact (List.cons_ne_nil ev post) (List.append_eq_nil.mp habs.symm).2

theorem specActive_snoc (uid : String) (evs : List (ResOp × Bool))
    (ev : ResOp × Bool) :
    SpecActive uid (evs ++ [ev]) ↔
      isPrepSuccessFor uid ev ∨
        (SpecActive uid evs ∧ ¬ isUnprepSuccessFor uid ev) := by
  constructor
  · rintro ⟨pre, e, post, hEq, hPrep, hPost⟩
    rcases List.eq_nil_or_concat post with rfl | ⟨post', x, rfl⟩
    · obtain ⟨rfl, hsing⟩ := List.append_inj' hEq (by simp)
      obtain rfl : ev = e := by simpa using hsing
      exact Or.inl hPrep
    · have hEq2 : evs ++ [ev] = (pre ++ e :: post') ++ [x] := by
        simpa using hEq
      obtain ⟨hevs, hsing⟩ := List.append_inj' hEq2 (by simp)
      obtain rfl : ev = x := by simpa using hsing
      refine Or.inr ⟨⟨pre, e, post', hevs, hPrep, ?_⟩, ?_⟩
      · intro ev2 hev2
        exact hPost ev2 (by simp [hev2])
      · exact hPost ev (by simp)
  · rintro (hPrep | ⟨⟨pre, e, post, hEq, hPrep, hPost⟩, hNo⟩)
    · exact ⟨evs, ev, [], rfl, hPrep, by simp⟩
    · refine ⟨pre, e, post ++ [ev], by simp [hEq], hPrep, ?_⟩
      intro ev2 hev2
      rcases List.mem_append.mp hev2 with h | h
      · exact hPost ev2 h
      · simpa [List.mem_singleton.mp h] using hNo

/-- The boolean fold over the log agrees with the existential reading. -/
theorem activeFold_eq_true_iff (uid : String) (evs : List (ResOp × Bool)) :
    activeFold uid false evs = true ↔ SpecActive uid evs := by
  induction evs using List.reverseRecOn with
  | nil =>
    simp only [activeFold, List.foldl_nil]
    exact iff_of_false (by simp) (specActive_nil uid)
  | append_singleton l ev ih =>
    have hfold : activeFold uid false (l ++ [ev]) =
        activeUpd uid (activeFold uid false l) ev := by
      simp [activeFold]
    rw [hfold, specActive_snoc]
    obtain ⟨op, ok⟩ := ev
    cases op with
    | prep u p we =>
      by_cases hck : ok = true ∧ u = uid
      · obtain ⟨rfl, rfl⟩ := hck
        simp [activeUpd, isPrepSuccessFor]
      · have hbb : (ok && u == uid) = false := by
          cases ok with
          | false => simp
          | true =>
            have hne : ¬ u = uid := fun hEq => hck ⟨rfl, hEq⟩
            simp [hne]
        simp only [activeUpd, hbb, Bool.false_eq_true, if_false]
        rw [ih]
        have h1 : ¬ isPrepSuccessFor uid (ResOp.prep u p we, ok) := by
          simp only [isPrepSuccessFor]
          intro hEq
          exact hck ⟨hEq.2, hEq.1⟩
        have h2 : ¬ isUnprepSuccessFor uid (ResOp.prep u p we, ok) := by
          simp [isUnprepSuccessFor]
        simp [h1, h2]
    | unprep u re we =>
      by_cases hck : ok = true ∧ u = uid
      · obtain ⟨rfl, rfl⟩ := hck
        simp [activeUpd, isPrepSuccessFor, isUnprepSuccessFor]
      · have hbb : (ok && u == uid) = false := by
          cases ok with
          | false => simp
          | true =>
            have hne : ¬ u = uid := fun hEq => hck ⟨rfl, hEq⟩
            simp [hne]
        simp only [activeUpd, hbb, Bool.false_eq_true, if_false]
        rw [ih]
        have h1 : ¬ isPrepSuccessFor uid (ResOp.unprep u re we, ok) := by
          simp [isPrepSuccessFor]
        have h2 : ¬ isUnprepSuccessFor uid (ResOp.unprep u re we, ok) := by
          simp only [isUnprepSuccessFor]
          intro hEq
          exact hck ⟨hEq.2, hEq.1⟩
        simp [h1, h2]

/-! ## The ResourceSlice publisher (pkg/driver/publisher.go) -/

structure SliceDevice where
  name : String
  attributes : List (String × String)
deriving DecidableEq, Repr

structure ResourceSlice where
  name : String
  resourceVersion : String
  driver : String
  nodeName : String
  poolName : String
  poolGeneration : Int
  resourceSliceCount : Int
  devices : List SliceDevice
deriving DecidableEq, Repr

structure ResourcePublisher where
  driverName : String
  nodeName : String
  resourceName : String
deriving DecidableEq, Repr

/-- Why the broker rejected the Create call: the key already exists, or any
other reason (timeout, authorization, ...).  The Go code receives both as
an opaque error value and never distinguishes them. -/
inductive CreateErrKind where
  | alreadyExists
  | other (msg : String)
deriving DecidableEq, Repr

/-- The error text the create error renders to via the %v format verb. -/
def CreateErrKind.text : CreateErrKind → String
  | CreateErrKind.alreadyExists => "resourceslices already exists"
  | CreateErrKind.other msg => msg

/-- One broker call made by a PublishResources attempt. -/
inductive BrokerOp where
  | create (slice : ResourceSlice)
  | get (name : String)
  | update (slice : ResourceSlice)
deriving DecidableEq, Repr

/-- Injected broker behaviour for one PublishResources attempt: the outcome
of the Create call, of the Get call (error text, or the existing record's
resourceVersion token), and of the Update call. -/
structure BrokerEnv where
  createErr : Option CreateErrKind
  getResult : Except String String
  updateErr : Option String

def sliceName (p : ResourcePublisher) : String :=
  p.nodeName ++ "-" ++ p.driverName

/-- The ResourceSlice built by PublishResources (publisher.go lines 47-82):
name is node-driver, the pool is named after the node, one device with the
three file attributes. -/
def mkSlice (p : ResourcePublisher) : ResourceSlice :=
  { name := sliceName p
    resourceVersion := ""
    driver := p.driverName
    nodeName := p.nodeName
    poolName := p.nodeName
    poolGeneration := 1
    resourceSliceCount := 1
    devices := [{ name := p.resourceName
                  attributes :=
                    [("file.dra.example.com/type", "file"),
                     ("file.dra.example.com/filename", p.resourceName),
                     ("file.dra.example.com/path",
                       "/etc/dra/" ++ p.resourceName)] }] }

/-- `PublishResources` (publisher.go lines 46-101): the broker calls it
makes in order, and the error it returns.  The fallback branch runs on any
Create failure; the code never inspects why Create failed. -/
def publishResources (p : ResourcePublisher) (env : BrokerEnv) :
    List BrokerOp × Option String :=
  let slice := mkSlice p
  match env.createErr with
  | none => ([BrokerOp.create slice], none)
  | some ce =>
    match env.getResult with
    | Except.error ge =>
      ([BrokerOp.create slice, BrokerOp.get (sliceName p)],
        some ("failed to create or get ResourceSlice: create=" ++ ce.text ++
          ", get=" ++ ge))
    | Except.ok rv =>
      let slice2 := { slice with resourceVersion := rv }
      match env.updateErr with
      | some ue =>
        ([BrokerOp.create slice, BrokerOp.get (sliceName p),
          BrokerOp.update slice2],
          some ("failed to update ResourceSlice: " ++ ue))
      | none =>
        ([BrokerOp.create slice, BrokerOp.get (sliceName p),
          BrokerOp.update slice2], none)

/-! ## Concrete instances used by counterexamples and witnesses -/

def cfgEx : DriverCfg :=
  { driverName := "file.dra.example.com", nodeName := "node1",
    resourceDir := "/etc/dra" }

def noPrepErrs : PrepEnv :=
  { resourceWriteErr := fun _ => false, cdiWriteErr := fun _ => false }

def noUnprepErrs : UnprepEnv :=
  { readErr := fun _ => false, writeErr := fun _ => false,
    cdiRemoveErr := fun _ => false }

/-- An unprepare environment whose resource-file read fails. -/
def readErrEnv : UnprepEnv :=
  { readErr := fun _ => true, writeErr := fun _ => false,
    cdiRemoveErr := fun _ => false }

/-- A prepare environment that fails the resource-file write for one claim. -/
def prepEnvB : PrepEnv :=
  { resourceWriteErr := fun u => u == "deadbeef", cdiWriteErr := fun _ => false }

/-- State after a successful prepare of claim uid u with pod name p. -/
def prepSmall : DriverState := (prepareResource initState "u" "p" false).1

def pubEx : ResourcePublisher :=
  { driverName := "file.dra.example.com", nodeName := "node1",
    resourceName := "file1" }

/-- Broker behaviour where Create fails for a reason other than the record
already existing, but Get and Update succeed. -/
def envOtherErr : BrokerEnv :=
  { createErr := some (CreateErrKind.other "connection timeout"),
    getResult := Except.ok "42", updateErr := none }

/-- Broker behaviour where Create fails because the record exists. -/
def envAlreadyExists : BrokerEnv :=
  { createErr := some CreateErrKind.alreadyExists,
    getResult := Except.ok "7", updateErr := none }

/-! ## Remaining shared helper lemmas -/

theorem runOps_append (s : DriverState) (l1 l2 : List ResOp) :
    runOps s (l1 ++ l2) = runOps (runOps s l1) l2 := by
  induction l1 generalizing s with
  | nil => rfl
  | cons op rest ih => exact ih (resStep s op).1

/-! ## Claim C1 -/

/-- C1 counterexample: two successful prepare calls for the distinct claim
ids claim-a and claim-b leave ONE line in the resource file (the second
claim's record), not two distinct lines, because `prepareResource`
overwrites the file with the new record instead of reading and appending. -/
theorem prepare_no_append_counterexample :
    fileLines (runOps initState
      [ResOp.prep "claim-a" "podA" false,
       ResOp.prep "claim-b" "podB" false]) = ["podB (claim: claim-b)"] ∧
    (fileLines (runOps initState
      [ResOp.prep "claim-a" "podA" false,
       ResOp.prep "claim-b" "podB" false])).length ≠ 2 := by
  decide

/-- C1 (amended): every successful prepare call overwrites the resource
file, so after any prior trace the file holds exactly one line, the record
of the claim just prepared; N prepares for N distinct claim ids therefore
leave 1 line (the last claim's record), not N lines. -/
theorem prepare_overwrites_file (ops : List ResOp) (claimUID podName : String)
    (hu : '\n' ∉ claimUID.data) (hp : '\n' ∉ podName.data) :
    fileLines (runOps initState (ops ++ [ResOp.prep claimUID podName false])) =
      [recordLine podName claimUID] := by
  rw [runOps_append]
  set s := runOps initState ops
  have hstate : runOps s [ResOp.prep claimUID podName false] =
      (prepareResource s claimUID podName false).1 := rfl
  rw [hstate]
  refine fileLines_of_record _ _ ?_ (recordLine_clean podName claimUID hp hu)
    (recordLine_ne_empty podName claimUID)
  simp [prepareResource]

/-- C1 witness: instance of the amended statement after a two-prepare
trace. -/
theorem prepare_overwrites_file_witness :
    fileLines (runOps initState
      ([ResOp.prep "claim-a" "podA" false] ++
        [ResOp.prep "claim-b" "podB" false])) =
      [recordLine "podB" "claim-b"] :=
  prepare_overwrites_file [ResOp.prep "claim-a" "podA" false] "claim-b" "podB"
    (by decide) (by decide)

/-! ## Claim C2 -/

/-- C2 counterexample: after preparing claim-a and then claim-b, claim-a is
still in the DeviceRecord map but its formatted record is not among the
file's lines, so the set of lines is NOT the image of DeviceRecord under
the formatting function. -/
theorem file_vs_deviceRecord_counterexample :
    mapLookup (runOps initState
      [ResOp.prep "claim-a" "podA" false,
       ResOp.prep "claim-b" "podB" false]).podResources "claim-a" =
      some "podA" ∧
    recordLine "podA" "claim-a" ∉ fileLines (runOps initState
      [ResOp.prep "claim-a" "podA" false,
       ResOp.prep "claim-b" "podB" false]) := by
  decide

/-- C2 (amended): after any trace of prepare/unprepare operations with
newline-free arguments, every line of the resource file is the formatted
record of some claim currently in DeviceRecord (the lines are a SUBSET of
the image, not the full image), and the file never holds more than one
line, so in particular it has no duplicate claim ids. -/
theorem file_lines_subset_of_deviceRecord (ops : List ResOp)
    (hc : ∀ op ∈ ops, opClean op) :
    (∀ l ∈ fileLines (runOps initState ops),
      ∃ uid pod,
        mapLookup (runOps initState ops).podResources uid = some pod ∧
        l = recordLine pod uid) ∧
    (fileLines (runOps initState ops)).length ≤ 1 := by
  have h := fileOk_runOps initState ops hc fileOk_init
  rcases h with h | h | ⟨uid, pod, hLook, hclean, hFile⟩
  · rw [fileLines_of_none _ h]
    exact ⟨by simp, by simp⟩
  · rw [fileLines_of_empty _ h]
    exact ⟨by simp, by simp⟩
  · rw [fileLines_of_record _ _ hFile hclean (recordLine_ne_empty _ _)]
    refine ⟨?_, by simp⟩
    intro l hl
    obtain rfl : l = recordLine pod uid := by simpa using hl
    exact ⟨uid, pod, hLook, rfl⟩

/-- C2 witness: instance of the amended statement on a prepare-prepare-
unprepare trace. -/
theorem file_lines_subset_of_deviceRecord_witness :
    (∀ l ∈ fileLines (runOps initState
        [ResOp.prep "claim-a" "podA" false,
         ResOp.prep "claim-b" "podB" false,
         ResOp.unprep "claim-b" false false]),
      ∃ uid pod,
        mapLookup (runOps initState
          [ResOp.prep "claim-a" "podA" false,
           ResOp.prep "claim-b" "podB" false,
           ResOp.unprep "claim-b" false false]).podResources uid = some pod ∧
        l = recordLine pod uid) ∧
    (fileLines (runOps initState
      [ResOp.prep "claim-a" "podA" false,
       ResOp.prep "claim-b" "podB" false,
       ResOp.unprep "claim-b" false false])).length ≤ 1 :=
  file_lines_subset_of_deviceRecord
    [ResOp.prep "claim-a" "podA" false,
     ResOp.prep "claim-b" "podB" false,
     ResOp.unprep "claim-b" false false]
    (by
      intro op hop
      simp only [List.mem_cons, List.not_mem_nil, or_false] at hop
      rcases hop with rfl | rfl | rfl <;> simp [opClean])

/-! ## Claim C3 -/

/-- C3 (confirmed): after any trace of prepare/unprepare calls, with any
injected I/O failures, a claim uid is present in DeviceRecord if and only
if the event log contains a successful prepare of it with no later
successful unprepare of it.  In particular every successful unprepare of a
tracked claim removes it. -/
theorem tracked_iff_prepared_not_unprepared (ops : List ResOp)
    (uid : String) :
    (mapLookup (runOps initState ops).podResources uid).isSome = true ↔
      SpecActive uid (runEvents initState ops) := by
  rw [tracked_runOps ops initState uid trackedFile_init]
  have hb : (mapLookup initState.podResources uid).isSome = false := rfl
  rw [hb]
  exact activeFold_eq_true_iff uid (runEvents initState ops)

/-- The state after a successful prepare of claim abc12345 with name
claim-a under cfgEx. -/
def prepStateEx : DriverState :=
  { podResources := [("abc12345", "pod-using-claim-a")]
    resourceFile := some "pod-using-claim-a (claim: abc12345)\n"
    cdiFiles := [("file.dra.example.com-file-file1.json", mkCdiSpec cfgEx)] }

/-- The response for that successful prepare. -/
def prepRespEx : NodePrepareResourceResponse :=
  { devices := [{ poolName := "default", deviceName := "file1"
                  cdiDeviceIds := ["file.dra.example.com/file=file1"] }] }

/-- The label derived by extractPodName is newline-free whenever the
claim's uid and name are. -/
theorem extractPodName_clean (c : Claim) (label : String)
    (hl : extractPodName c = some label)
    (hu : '\n' ∉ c.uid.data) (hn : '\n' ∉ c.name.data) :
    '\n' ∉ label.data := by
  by_cases hname : c.name = ""
  · by_cases hlen : 8 ≤ c.uid.length
    · have hlab : label = "pod-" ++ String.mk (c.uid.data.take 8) := by
        rw [extractPodName, if_neg (by simp [hname]), if_pos hlen] at hl
        exact (Option.some.inj hl).symm
      subst hlab
      rw [String.data_append]
      intro hmem
      rcases List.mem_append.mp hmem with h | h
      · revert h
        decide
      · exact hu (List.take_subset _ _ h)
    · rw [extractPodName, if_neg (by simp [hname]), if_neg hlen] at hl
      exact absurd hl (by simp)
  · have hlab : label = "pod-using-" ++ c.name := by
      rw [extractPodName, if_pos hname] at hl
      exact (Option.some.inj hl).symm
    subst hlab
    rw [String.data_append]
    intro hmem
    rcases List.mem_append.mp hmem with h | h
    · revert h
      decide
    · exact hn h

/-! ## Claim C4 -/

/-- C4 counterexample: prepare of claim abc12345 succeeds and writes the
descriptor file, but a later unprepare call for the UNRELATED, never
prepared claim zzz also succeeds and deletes that descriptor file, because
the descriptor file name does not involve the claim uid at all. -/
theorem cdi_descriptor_counterexample :
    ((prepareClaimStep cfgEx noPrepErrs initState
        { uid := "abc12345", name := "claim-a" }).map
      (fun x =>
        (x.2.error,
         mapLookup x.1.cdiFiles (cdiFileName cfgEx "abc12345"),
         (unprepareClaimStep cfgEx noUnprepErrs x.1 "zzz").2.error,
         mapLookup (unprepareClaimStep cfgEx noUnprepErrs x.1 "zzz").1.cdiFiles
           (cdiFileName cfgEx "abc12345")))) =
      some ("", some (mkCdiSpec cfgEx), "", none) := by
  decide

/-- C4 (amended): the driver keeps a SINGLE descriptor file shared by all
claims: its name depends only on the driver name, never on the claim.
After a successful prepare that file exists and holds a mount whose host
and container paths both equal the resource file path with options ro and
bind; and every unprepare whose resource-file step succeeds (including
no-op unprepares of unknown claims) deletes that shared file. -/
theorem cdi_descriptor_shared (cfg : DriverCfg) (env : PrepEnv)
    (uenv : UnprepEnv) (s t s' : DriverState) (c : Claim)
    (u1 u2 claimUID : String) (r : NodePrepareResourceResponse)
    (hp : prepareClaimStep cfg env s c = some (s', r))
    (hok : r.error = "")
    (hu : (unprepareResource t claimUID (uenv.readErr claimUID)
      (uenv.writeErr claimUID)).2 = none)
    (hrm : uenv.cdiRemoveErr claimUID = false) :
    cdiFileName cfg u1 = cdiFileName cfg u2 ∧
    mapLookup s'.cdiFiles (cdiFileName cfg c.uid) = some (mkCdiSpec cfg) ∧
    (mkCdiSpec cfg).devices =
      [{ name := resourceFileName
         containerEdits :=
           { mounts := [{ hostPath := resourceFilePath cfg
                          containerPath := resourceFilePath cfg
                          options := ["ro", "bind"] }] } }] ∧
    mapLookup (unprepareClaimStep cfg uenv t claimUID).1.cdiFiles
      (cdiFileName cfg claimUID) = none := by
  refine ⟨rfl, ?_, rfl, ?_⟩
  · cases hpod : extractPodName c with
    | none => simp [prepareClaimStep, hpod] at hp
    | some podName =>
      cases hwe : env.resourceWriteErr c.uid with
      | true =>
        simp [prepareClaimStep, hpod, hwe, prepareResource] at hp
        obtain ⟨-, hr⟩ := hp
        rw [← hr] at hok
        simp at hok
      | false =>
        cases hce : env.cdiWriteErr c.uid with
        | true =>
          simp [prepareClaimStep, hpod, hwe, hce, prepareResource,
            createCDISpec] at hp
          obtain ⟨-, hr⟩ := hp
          rw [← hr] at hok
          simp at hok
        | false =>
          simp only [prepareClaimStep, hpod, hwe, hce, prepareResource,
            createCDISpec, if_false, Bool.false_eq_true] at hp
          obtain ⟨hs', -⟩ := Prod.mk.injEq .. ▸ (Option.some.inj hp)
          rw [← hs']
          simp [mapLookup_insert]
  · rcases hres : unprepareResource t claimUID (uenv.readErr claimUID)
        (uenv.writeErr claimUID) with ⟨t1, e⟩
    rw [hres] at hu
    simp only at hu
    subst hu
    simp [unprepareClaimStep, hres, deleteCDISpec, hrm, mapLookup_erase]

/-- C4 witness: the amended statement instantiated on concrete states. -/
theorem cdi_descriptor_shared_witness :
    cdiFileName cfgEx "u1" = cdiFileName cfgEx "u2" ∧
    mapLookup prepStateEx.cdiFiles (cdiFileName cfgEx "abc12345") =
      some (mkCdiSpec cfgEx) ∧
    (mkCdiSpec cfgEx).devices =
      [{ name := resourceFileName
         containerEdits :=
           { mounts := [{ hostPath := resourceFilePath cfgEx
                          containerPath := resourceFilePath cfgEx
                          options := ["ro", "bind"] }] } }] ∧
    mapLookup (unprepareClaimStep cfgEx noUnprepErrs initState "zzz").1.cdiFiles
      (cdiFileName cfgEx "zzz") = none :=
  cdi_descriptor_shared cfgEx noPrepErrs noUnprepErrs initState initState
    prepStateEx { uid := "abc12345", name := "claim-a" } "u1" "u2" "zzz"
    prepRespEx (by decide) (by decide) (by decide) rfl

/-! ## Claim C5 -/

/-- C5 counterexample: for the claim with uid u1 and a name containing a
newline, the derived label also contains the newline, and after preparing
it the resource file does NOT contain the formatted record as a line (the
record is broken across two lines by Go's strings.Split view). -/
theorem roundtrip_counterexample :
    extractPodName { uid := "u1", name := "a\nb" } = some "pod-using-a\nb" ∧
    recordLine "pod-using-a\nb" "u1" ∉
      fileLines (prepareResource initState "u1" "pod-using-a\nb" false).1 := by
  decide

/-- C5 (amended): for every claim whose uid and name are newline-free, with
derived label L, preparing it makes the resource file contain the line
L (claim: uid), and an immediately following unprepare of the same claim
removes exactly that line and no other (the file is left empty, since the
prepare had overwritten it with that single line). -/
theorem roundtrip_prepare_unprepare (s : DriverState) (c : Claim)
    (label : String) (hl : extractPodName c = some label)
    (hu : '\n' ∉ c.uid.data) (hn : '\n' ∉ c.name.data) :
    recordLine label c.uid ∈
      fileLines (prepareResource s c.uid label false).1 ∧
    fileLines
        (unprepareResource (prepareResource s c.uid label false).1 c.uid
          false false).1 =
      (fileLines (prepareResource s c.uid label false).1).erase
        (recordLine label c.uid) := by
  have hlc := extractPodName_clean c label hl hu hn
  have hclean := recordLine_clean label c.uid hlc hu
  have hfile1 : (prepareResource s c.uid label false).1.resourceFile =
      some (recordLine label c.uid ++ "\n") := by
    simp [prepareResource]
  have hlines1 : fileLines (prepareResource s c.uid label false).1 =
      [recordLine label c.uid] :=
    fileLines_of_record _ _ hfile1 hclean (recordLine_ne_empty _ _)
  have hlook1 : mapLookup (prepareResource s c.uid label false).1.podResources
      c.uid = some label := by
    simp [prepareResource, mapLookup_insert]
  have hunprep : (unprepareResource (prepareResource s c.uid label false).1
      c.uid false false).1.resourceFile = some "" := by
    simp [unprepareResource, hlook1, hfile1,
      newResourceContent_self label c.uid hclean]
  constructor
  · rw [hlines1]
    simp
  · rw [fileLines_of_empty _ hunprep, hlines1]
    simp

/-- C5 witness: the spec's concrete scenario, claim id abc123 with name
claim-A and derived label pod-using-claim-A. -/
theorem roundtrip_prepare_unprepare_witness :
    recordLine "pod-using-claim-A" "abc123" ∈
      fileLines (prepareResource initState "abc123" "pod-using-claim-A"
        false).1 ∧
    fileLines
        (unprepareResource (prepareResource initState "abc123"
          "pod-using-claim-A" false).1 "abc123" false false).1 =
      (fileLines (prepareResource initState "abc123" "pod-using-claim-A"
        false).1).erase (recordLine "pod-using-claim-A" "abc123") :=
  roundtrip_prepare_unprepare initState
    { uid := "abc123", name := "claim-A" } "pod-using-claim-A"
    (by decide) (by decide) (by decide)

/-! ## Claim C6 -/

/-- C6 (confirmed): unprepare of a claim absent from DeviceRecord succeeds
without error and changes nothing; consequently, whenever an unprepare call
succeeds, a second unprepare of the same claim also succeeds (even under
injected I/O failures) and leaves the driver state, hence DeviceRecord and
the resource file, unchanged. -/
theorem unprepare_idempotent (s : DriverState) (claimUID : String)
    (re1 we1 re2 we2 : Bool) :
    (mapLookup s.podResources claimUID = none →
      unprepareResource s claimUID re1 we1 = (s, none)) ∧
    ((unprepareResource s claimUID re1 we1).2 = none →
      unprepareResource (unprepareResource s claimUID re1 we1).1 claimUID
        re2 we2 = ((unprepareResource s claimUID re1 we1).1, none)) := by
  constructor
  · intro h
    simp [unprepareResource, h]
  · intro h
    cases hLook : mapLookup s.podResources claimUID with
    | none => simp [unprepareResource, hLook]
    | some pod =>
      cases hFile : s.resourceFile with
      | none => simp [unprepareResource, hLook, hFile]
      | some data =>
        cases re1 with
        | true => simp [unprepareResource, hLook, hFile] at h
        | false =>
          cases we1 with
          | true => simp [unprepareResource, hLook, hFile] at h
          | false =>
            simp [unprepareResource, hLook, hFile, mapLookup_erase]

/-- C6 witness: an unprepare of a never-prepared claim is a successful
no-op, and after a successful unprepare a second one (even with injected
read and write failures) succeeds and changes nothing. -/
theorem unprepare_idempotent_witness :
    (unprepareResource initState "zzz" false false = (initState, none)) ∧
    (unprepareResource (unprepareResource prepSmall "u" false false).1 "u"
      true true = ((unprepareResource prepSmall "u" false false).1, none)) :=
  ⟨(unprepare_idempotent initState "zzz" false false false false).1
      (by decide),
   (unprepare_idempotent prepSmall "u" false false true true).2 (by decide)⟩

/-! ## Claim C7 -/

/-- A failing unprepareResource call returns the state unchanged together
with its error. -/
theorem unprepareResource_error (s : DriverState) (claimUID : String)
    (re we : Bool) (msg : String)
    (h : (unprepareResource s claimUID re we).2 = some msg) :
    unprepareResource s claimUID re we = (s, some msg) := by
  cases hLook : mapLookup s.podResources claimUID with
  | none => simp [unprepareResource, hLook] at h
  | some pod =>
    cases hFile : s.resourceFile with
    | none => simp [unprepareResource, hLook, hFile] at h
    | some data =>
      cases re with
      | true =>
        simp only [unprepareResource, hLook, hFile, if_true] at h ⊢
        simp at h
        simp [h]
      | false =>
        cases we with
        | true =>
          simp only [unprepareResource, hLook, hFile] at h ⊢
          simp at h
          simp [h]
        | false => simp [unprepareResource, hLook, hFile] at h

/-- C7 (confirmed): when the resource-file read or rewrite fails during the
unprepare of a tracked claim, the error is surfaced as that claim's result
and the whole driver state is returned unchanged, so the claim id is still
in DeviceRecord and a retry is safe. -/
theorem unprepare_error_keeps_claim (cfg : DriverCfg) (env : UnprepEnv)
    (s : DriverState) (claimUID podName msg : String)
    (hTracked : mapLookup s.podResources claimUID = some podName)
    (hErr : (unprepareResource s claimUID (env.readErr claimUID)
      (env.writeErr claimUID)).2 = some msg) :
    unprepareClaimStep cfg env s claimUID = (s, { error := msg }) ∧
    mapLookup (unprepareClaimStep cfg env s claimUID).1.podResources
      claimUID = some podName := by
  have heq := unprepareResource_error s claimUID _ _ msg hErr
  have hstep : unprepareClaimStep cfg env s claimUID = (s, { error := msg }) := by
    simp [unprepareClaimStep, heq]
  refine ⟨hstep, ?_⟩
  rw [hstep]
  exact hTracked

/-- C7 witness: a read failure while unpreparing the tracked claim u keeps
it in DeviceRecord and surfaces the error as the claim's result. -/
theorem unprepare_error_keeps_claim_witness :
    unprepareClaimStep cfgEx readErrEnv prepSmall "u" =
      (prepSmall, { error := "failed to read resource file" }) ∧
    mapLookup (unprepareClaimStep cfgEx readErrEnv prepSmall "u").1.podResources
      "u" = some "p" :=
  unprepare_error_keeps_claim cfgEx readErrEnv prepSmall "u" "p"
    "failed to read resource file" (by decide) (by decide)

/-! ## Claim C8 -/

/-- A well-formed per-claim result: a non-empty device list with no error,
or an error with no devices. -/
def goodResp (r : NodePrepareResourceResponse) : Prop :=
  (r.error = "" ∧ r.devices ≠ []) ∨ (r.error ≠ "" ∧ r.devices = [])

/-- The response the claim loop produces for one claim.  It depends only on
the claim and the injected I/O outcomes for that claim's uid, never on the
driver state. -/
def claimResp (cfg : DriverCfg) (env : PrepEnv) (c : Claim) :
    NodePrepareResourceResponse :=
  if env.resourceWriteErr c.uid then
    { error := "failed to write resource file" }
  else if env.cdiWriteErr c.uid then
    { error := "failed to write CDI spec" }
  else
    { devices := [{ poolName := "default"
                    deviceName := resourceFileName
                    cdiDeviceIds :=
                      [cfg.driverName ++ "/file=" ++ resourceFileName] }] }

theorem prepareClaimStep_eq (cfg : DriverCfg) (env : PrepEnv)
    (s : DriverState) (c : Claim) (h : (extractPodName c).isSome = true) :
    ∃ s', prepareClaimStep cfg env s c = some (s', claimResp cfg env c) := by
  obtain ⟨pod, hpod⟩ := Option.isSome_iff_exists.mp h
  cases hwe : env.resourceWriteErr c.uid with
  | true =>
    exact ⟨s, by
      simp [prepareClaimStep, hpod, hwe, prepareResource, claimResp]⟩
  | false =>
    cases hce : env.cdiWriteErr c.uid with
    | true =>
      refine ⟨{ s with
          resourceFile := some (recordLine pod c.uid ++ "\n")
          podResources := mapInsert s.podResources c.uid pod }, ?_⟩
      simp [prepareClaimStep, hpod, hwe, hce, prepareResource, createCDISpec,
        claimResp]
    | false =>
      refine ⟨{ s with
          resourceFile := some (recordLine pod c.uid ++ "\n")
          podResources := mapInsert s.podResources c.uid pod
          cdiFiles :=
            mapInsert s.cdiFiles (cdiFileName cfg c.uid) (mkCdiSpec cfg) }, ?_⟩
      simp [prepareClaimStep, hpod, hwe, hce, prepareResource, createCDISpec,
        claimResp]

theorem claimResp_good (cfg : DriverCfg) (env : PrepEnv) (c : Claim) :
    goodResp (claimResp cfg env c) := by
  unfold claimResp goodResp
  split
  · exact Or.inr ⟨by decide, rfl⟩
  · split
    · exact Or.inr ⟨by decide, rfl⟩
    · exact Or.inl ⟨rfl, by simp⟩

theorem claimResp_agree (cfg : DriverCfg) (env env' : PrepEnv) (c : Claim)
    (h1 : env.resourceWriteErr c.uid = env'.resourceWriteErr c.uid)
    (h2 : env.cdiWriteErr c.uid = env'.cdiWriteErr c.uid) :
    claimResp cfg env c = claimResp cfg env' c := by
  unfold claimResp
  rw [h1, h2]

/-- When no claim panics, the loop completes and the response map covers
the requested uids over the accumulator, with well-formed entries. -/
theorem nodePrepareAux_props (cfg : DriverCfg) (env : PrepEnv)
    (claims : List Claim) :
    ∀ s acc, (∀ c ∈ claims, (extractPodName c).isSome = true) →
    ∃ st m, nodePrepareResourcesAux cfg env s claims acc = some (st, m) ∧
      (∀ u, (mapLookup m u).isSome = true ↔
        (u ∈ claims.map Claim.uid ∨ (mapLookup acc u).isSome = true)) ∧
      (∀ u r, mapLookup m u = some r →
        goodResp r ∨ mapLookup acc u = some r) := by
  induction claims with
  | nil =>
    intro s acc hall
    exact ⟨s, acc, rfl, by simp, fun u r h => Or.inr h⟩
  | cons c rest ih =>
    intro s acc hall
    obtain ⟨s1, hstep⟩ := prepareClaimStep_eq cfg env s c (hall c (by simp))
    obtain ⟨st, m, hrun, hcov, hgood⟩ :=
      ih s1 (mapInsert acc c.uid (claimResp cfg env c))
        (fun c2 h2 => hall c2 (List.mem_cons_of_mem _ h2))
    refine ⟨st, m, ?_, ?_, ?_⟩
    · simp only [nodePrepareResourcesAux, hstep]
      exact hrun
    · intro u
      rw [hcov u, mapLookup_insert]
      by_cases hcu : c.uid = u
      · subst hcu
        simp
      · have hcu2 : ¬ u = c.uid := fun hEq => hcu hEq.symm
        simp [hcu, hcu2]
    · intro u r hur
      rcases hgood u r hur with hg | hacc
      · exact Or.inl hg
      · rw [mapLookup_insert] at hacc
        by_cases hcu : c.uid = u
        · rw [if_pos hcu] at hacc
          exact Or.inl ((Option.some.inj hacc) ▸ claimResp_good cfg env c)
        · rw [if_neg hcu] at hacc
          exact Or.inr hacc

/-- Two runs of the loop from arbitrary states, under environments that
agree on one uid's injected outcomes, produce the same result for that
uid. -/
theorem nodePrepareAux_agree (cfg : DriverCfg) (env env' : PrepEnv)
    (uid : String)
    (h1 : env.resourceWriteErr uid = env'.resourceWriteErr uid)
    (h2 : env.cdiWriteErr uid = env'.cdiWriteErr uid)
    (claims : List Claim) :
    ∀ s s' acc acc', (∀ c ∈ claims, (extractPodName c).isSome = true) →
    mapLookup acc uid = mapLookup acc' uid →
    ∃ st m st2 m2,
      nodePrepareResourcesAux cfg env s claims acc = some (st, m) ∧
      nodePrepareResourcesAux cfg env' s' claims acc' = some (st2, m2) ∧
      mapLookup m uid = mapLookup m2 uid := by
  induction claims with
  | nil =>
    intro s s' acc acc' hall hacc
    exact ⟨s, acc, s', acc', rfl, rfl, hacc⟩
  | cons c rest ih =>
    intro s s' acc acc' hall hacc
    obtain ⟨s1, hstep1⟩ := prepareClaimStep_eq cfg env s c (hall c (by simp))
    obtain ⟨s1', hstep2⟩ := prepareClaimStep_eq cfg env' s' c (hall c (by simp))
    have haccnew :
        mapLookup (mapInsert acc c.uid (claimResp cfg env c)) uid =
          mapLookup (mapInsert acc' c.uid (claimResp cfg env' c)) uid := by
      rw [mapLookup_insert, mapLookup_insert]
      by_cases hcu : c.uid = uid
      · subst hcu
        rw [if_pos rfl, if_pos rfl, claimResp_agree cfg env env' c h1 h2]
      · rw [if_neg hcu, if_neg hcu]
        exact hacc
    obtain ⟨st, m, st2, m2, hr1, hr2, hmm⟩ :=
      ih s1 s1' _ _ (fun c2 hm => hall c2 (List.mem_cons_of_mem _ hm)) haccnew
    refine ⟨st, m, st2, m2, ?_, ?_, hmm⟩
    · simp only [nodePrepareResourcesAux, hstep1]
      exact hr1
    · simp only [nodePrepareResourcesAux, hstep2]
      exact hr2

/-- C8 (confirmed): when no claim in the batch panics, NodePrepareResources
completes; its response maps a claim uid to a result exactly when the uid
was requested; every result carries either a non-empty device list or an
error, never both; and the result for a uid is not changed by the injected
failures of other claims or by the prior driver state (the loop continues
past per-claim errors). -/
theorem prepare_batch_results (cfg : DriverCfg) (env env' : PrepEnv)
    (s s' : DriverState) (claims : List Claim) (uid : String)
    (hall : ∀ c ∈ claims, (extractPodName c).isSome = true)
    (h1 : env.resourceWriteErr uid = env'.resourceWriteErr uid)
    (h2 : env.cdiWriteErr uid = env'.cdiWriteErr uid) :
    ∃ st m st2 m2,
      nodePrepareResources cfg env s claims = some (st, m) ∧
      nodePrepareResources cfg env' s' claims = some (st2, m2) ∧
      (∀ u, (mapLookup m u).isSome = true ↔ u ∈ claims.map Claim.uid) ∧
      (∀ u r, mapLookup m u = some r →
        (r.error = "" ∧ r.devices ≠ []) ∨ (r.error ≠ "" ∧ r.devices = [])) ∧
      mapLookup m uid = mapLookup m2 uid := by
  obtain ⟨stA, mA, hrA, hcov, hgood⟩ :=
    nodePrepareAux_props cfg env claims s [] hall
  obtain ⟨stB, mB, stC, mC, hrB, hrC, hagree⟩ :=
    nodePrepareAux_agree cfg env env' uid h1 h2 claims s s' [] [] hall rfl
  rw [hrA] at hrB
  obtain ⟨hst, hm⟩ := Prod.ext_iff.mp (Option.some.inj hrB)
  subst hst
  subst hm
  refine ⟨stA, mA, stC, mC, hrA, hrC, ?_, ?_, hagree⟩
  · intro u
    rw [hcov u]
    simp [mapLookup]
  · intro u r hur
    rcases hgood u r hur with hg | habs
    · exact hg
    · simp [mapLookup] at habs

/-- The batch used by the C8 witness: one well-formed claim and one claim
whose resource write will fail under prepEnvB. -/
def prepClaimsEx : List Claim :=
  [{ uid := "abc12345", name := "claim-a" }, { uid := "deadbeef", name := "" }]

/-- C8 witness: the batch theorem instantiated with a no-failure
environment and an environment failing claim deadbeef, agreeing on claim
abc12345. -/
theorem prepare_batch_results_witness :
    ∃ st m st2 m2,
      nodePrepareResources cfgEx noPrepErrs initState prepClaimsEx =
        some (st, m) ∧
      nodePrepareResources cfgEx prepEnvB initState prepClaimsEx =
        some (st2, m2) ∧
      (∀ u, (mapLookup m u).isSome = true ↔
        u ∈ prepClaimsEx.map Claim.uid) ∧
      (∀ u r, mapLookup m u = some r →
        (r.error = "" ∧ r.devices ≠ []) ∨ (r.error ≠ "" ∧ r.devices = [])) ∧
      mapLookup m "abc12345" = mapLookup m2 "abc12345" :=
  prepare_batch_results cfgEx noPrepErrs prepEnvB initState initState
    prepClaimsEx "abc12345" (by decide) (by decide) (by decide)

/-! ## Claim C9 -/

/-- C9 counterexample: the Create call fails for a reason other than the
record already existing (a connection timeout), yet PublishResources
reports success, because the fallback path ran anyway and its Get and
Update succeeded.  The claim says any non-already-exists creation failure
is reported to the caller. -/
theorem publish_fallback_counterexample :
    envOtherErr.createErr = some (CreateErrKind.other "connection timeout") ∧
    (publishResources pubEx envOtherErr).2 = none := by
  decide

/-- C9 (amended): Publish attempts Create first; on ANY Create failure,
without inspecting why it failed, it performs the Get fallback; a Get
failure is reported wrapping both errors; on Get success it performs the
conditioned Update carrying the fetched resourceVersion token, reporting
an error exactly when the Update fails. -/
theorem publish_fallback_on_any_create_error (p : ResourcePublisher)
    (env : BrokerEnv) (ce : CreateErrKind)
    (hc : env.createErr = some ce) :
    (publishResources p env).1.head? = some (BrokerOp.create (mkSlice p)) ∧
    (∀ ge, env.getResult = Except.error ge →
      publishResources p env =
        ([BrokerOp.create (mkSlice p), BrokerOp.get (sliceName p)],
          some ("failed to create or get ResourceSlice: create=" ++
            ce.text ++ ", get=" ++ ge))) ∧
    (∀ rv, env.getResult = Except.ok rv →
      publishResources p env =
        ([BrokerOp.create (mkSlice p), BrokerOp.get (sliceName p),
          BrokerOp.update { mkSlice p with resourceVersion := rv }],
          Option.map (fun ue => "failed to update ResourceSlice: " ++ ue)
            env.updateErr)) := by
  refine ⟨?_, ?_, ?_⟩
  · cases hg : env.getResult with
    | error ge => simp [publishResources, hc, hg]
    | ok rv =>
      cases hu : env.updateErr with
      | none => simp [publishResources, hc, hg, hu]
      | some ue => simp [publishResources, hc, hg, hu]
  · intro ge hg
    simp [publishResources, hc, hg]
  · intro rv hg
    cases hu : env.updateErr with
    | none => simp [publishResources, hc, hg, hu]
    | some ue => simp [publishResources, hc, hg, hu]

/-- C9 witness: the amended statement on the already-exists fallback with a
successful update. -/
theorem publish_fallback_witness :
    (publishResources pubEx envAlreadyExists).1.head? =
      some (BrokerOp.create (mkSlice pubEx)) ∧
    (∀ ge, envAlreadyExists.getResult = Except.error ge →
      publishResources pubEx envAlreadyExists =
        ([BrokerOp.create (mkSlice pubEx), BrokerOp.get (sliceName pubEx)],
          some ("failed to create or get ResourceSlice: create=" ++
            CreateErrKind.alreadyExists.text ++ ", get=" ++ ge))) ∧
    (∀ rv, envAlreadyExists.getResult = Except.ok rv →
      publishResources pubEx envAlreadyExists =
        ([BrokerOp.create (mkSlice pubEx), BrokerOp.get (sliceName pubEx),
          BrokerOp.update { mkSlice pubEx with resourceVersion := rv }],
          Option.map (fun ue => "failed to update ResourceSlice: " ++ ue)
            envAlreadyExists.updateErr)) :=
  publish_fallback_on_any_create_error pubEx envAlreadyExists
    CreateErrKind.alreadyExists rfl

/-! ## Claim C10 -/

/-- If any claim of the batch panics in extractPodName, the whole
NodePrepareResources call panics (no response is produced). -/
theorem nodePrepareAux_none (cfg : DriverCfg) (env : PrepEnv)
    (claims : List Claim) :
    ∀ s acc c, c ∈ claims → extractPodName c = none →
    nodePrepareResourcesAux cfg env s claims acc = none := by
  induction claims with
  | nil =>
    intro s acc c h
    simp at h
  | cons c2 rest ih =>
    intro s acc c hmem hnone
    rcases List.mem_cons.mp hmem with rfl | hmem2
    · simp [nodePrepareResourcesAux, prepareClaimStep, hnone]
    · cases hstep : prepareClaimStep cfg env s c2 with
      | none => simp [nodePrepareResourcesAux, hstep]
      | some pr =>
        simp only [nodePrepareResourcesAux, hstep]
        exact ih pr.1 (mapInsert acc c2.uid pr.2) c hmem2 hnone

/-- C10 (confirmed): for a claim with empty name, the label derivation
slices the first 8 bytes of the uid and is total only when the uid has at
least 8 bytes; a claim with empty name and a shorter uid makes
extractPodName panic, and the whole NodePrepareResources call containing
it panics instead of returning a per-claim error. -/
theorem short_uid_panics (cfg : DriverCfg) (env : PrepEnv) (s : DriverState)
    (claims : List Claim) (c : Claim) (hmem : c ∈ claims)
    (hname : c.name = "") (hlen : c.uid.length < 8) :
    extractPodName c = none ∧
    nodePrepareResources cfg env s claims = none ∧
    (∀ c2 : Claim, c2.name = "" → 8 ≤ c2.uid.length →
      extractPodName c2 = some ("pod-" ++ String.mk (c2.uid.data.take 8))) := by
  have hpanic : extractPodName c = none := by
    rw [extractPodName, if_neg (by simp [hname]), if_neg (Nat.not_le.mpr hlen)]
  refine ⟨hpanic, nodePrepareAux_none cfg env claims s [] c hmem hpanic, ?_⟩
  intro c2 hn2 hl2
  rw [extractPodName, if_neg (by simp [hn2]), if_pos hl2]

/-- C10 witness: a batch holding the claim with empty name and 3-byte uid
abc makes the whole call panic. -/
theorem short_uid_panics_witness :
    extractPodName { uid := "abc", name := "" } = none ∧
    nodePrepareResources cfgEx noPrepErrs initState
      [{ uid := "abc", name := "" }] = none ∧
    (∀ c2 : Claim, c2.name = "" → 8 ≤ c2.uid.length →
      extractPodName c2 = some ("pod-" ++ String.mk (c2.uid.data.take 8))) :=
  short_uid_panics cfgEx noPrepErrs initState
    [{ uid := "abc", name := "" }] { uid := "abc", name := "" }
    (by decide) rfl (by decide)

end DraExample
